import Mathlib

/-!
# Verification of the AlephBFT unit-creation component (`src/creation/mod.rs`)

Shallow embedding of the creation task. The asynchronous control flow of
`wait_until_ready` and `run` is embedded as pure functions consuming an
explicit trace of select events; one `Event` records which branch of the
`futures::select!` fired at a given wait point. The `Creator` state machine
lives in `creation/creator.rs`, which is not part of the sources at hand,
so its operations are modelled from the specification (§3, §4.1); each such
definition is marked `Modelled from the spec:` in its doc comment.

Machine integers: `Round` is a small unsigned integer in the source and the
orchestrator only iterates `starting_round..max_round` and compares rounds,
so rounds, node indices and counts are embedded as `Nat`.
-/

namespace AlephBFT

/-- Modelled from the spec: hashing is out of scope (§1, "hashing/cryptographic
primitives" are external); created units get an abstract deterministic hash
from their creator and round. -/
def mkHash (creator round : Nat) : Nat :=
  Nat.pair creator round

/-- A unit: vertex of the DAG, with its hash, round, creator and parent map
(`NodeIndex → hash`, kept as an association list ordered by node index). -/
structure Unit where
  hash : Nat
  round : Nat
  creator : Nat
  parents : List (Nat × Nat)
deriving DecidableEq, Repr

/-- Modelled from the spec (§3, §4.1): the Creator state machine — a
per-round, per-creator store of the first-seen unit hash for that pair,
plus the node's own most recently created round. -/
structure Creator where
  node_id : Nat
  n_members : Nat
  /-- entries `(round, creator, hash)`, at most one per `(round, creator)`. -/
  candidates : List (Nat × Nat × Nat)
  /-- the node's own most recently created round, if any. -/
  own_round : Option Nat
deriving DecidableEq, Repr

/-- Modelled from the spec: `Creator::new(node_id, n_members)` — empty store. -/
def Creator.new (node_id n_members : Nat) : Creator :=
  ⟨node_id, n_members, [], none⟩

/-- Modelled from the spec (§3): the recorded hash for `(round, creator)`,
if any. -/
def getCandidate (c : Creator) (round creator : Nat) : Option Nat :=
  (c.candidates.find? fun e => e.1 == round && e.2.1 == creator).map fun e => e.2.2

/-- Modelled from the spec (§4.1 `add_unit`): record the unit as the parent
candidate for `(unit.round, unit.creator)` unless an entry for that pair
already exists (first-seen wins); if the unit is self-authored, update the
node's own last-created-round bookkeeping (used by `is_behind`). -/
def addUnit (c : Creator) (u : Unit) : Creator :=
  let c1 :=
    if (getCandidate c u.round u.creator).isSome then c
    else { c with candidates := (u.round, u.creator, u.hash) :: c.candidates }
  if u.creator = c.node_id then
    { c1 with own_round := some (max u.round (c.own_round.getD 0)) }
  else c1

/-- Modelled from the spec: number of distinct recorded creators with a unit
at `round` (keys are unique per round, drawn from `[0, n_members)`). -/
def countCandidates (c : Creator) (round : Nat) : Nat :=
  (List.range c.n_members).countP fun i => (getCandidate c round i).isSome

/-- Modelled from the spec (§4.1 `can_create`): true iff `round == 0`, or the
node's own unit for `round - 1` exists and the number of distinct recorded
creators at `round - 1` exceeds `floor(2N/3)`. -/
def canCreate (c : Creator) (round : Nat) : Bool :=
  round == 0 ||
    ((getCandidate c (round - 1) c.node_id).isSome &&
      2 * c.n_members / 3 < countCandidates c (round - 1))

/-- Modelled from the spec (§4.1 `is_behind`): true iff the node has already
created a unit for a round `>= round` in this run. -/
def isBehind (c : Creator) (round : Nat) : Bool :=
  match c.own_round with
  | some m => round ≤ m
  | none => false

/-- Modelled from the spec (§4.1 `create_unit`): assemble the parent set —
empty for round 0, otherwise all recorded round-`(r-1)` units (own included),
up to `n_members`, ordered by node index — produce the unit, and record it
as the node's own unit for `round`. Returns the unit, its parent-hash list,
and the updated state. -/
def createUnit (c : Creator) (round : Nat) : Unit × List Nat × Creator :=
  let parents : List (Nat × Nat) :=
    if round = 0 then []
    else (List.range c.n_members).filterMap fun i =>
      (getCandidate c (round - 1) i).map fun h => (i, h)
  let u : Unit := ⟨mkHash c.node_id round, round, c.node_id, parents⟩
  (u, parents.map fun p => p.2, addUnit c u)

/-- One event observed at a wait point of the `futures::select!` in
`wait_until_ready`: which branch fired. -/
inductive Event
  /-- `incoming_parents.next()` yielded `Some(unit)`. -/
  | unitArrived (u : Unit)
  /-- `incoming_parents.next()` yielded `None`: the inbound stream closed. -/
  | streamClosed
  /-- the armed delay (pacing timer, or re-armed watchdog) elapsed. -/
  | timerElapsed
  /-- the `exit` oneshot fired: external cancellation. -/
  | exitSignal
deriving DecidableEq, Repr

/-- Outcome of `wait_until_ready`: `Ok(())` with the updated creator and the
unconsumed remainder of the event trace, `Err(())` likewise, or the trace
ran out while the loop was still waiting. -/
inductive WaitResult
  /-- `Ok(())`: both gates open, return to the caller. -/
  | ready (c : Creator) (rest : List Event)
  /-- `Err(())`: inbound stream closed or exit signal received. -/
  | cancelled (c : Creator) (rest : List Event)
  /-- the event trace ended while the loop was still waiting. -/
  | stuck (c : Creator)
deriving DecidableEq, Repr

/-- The `while !delay_passed || !creator.can_create(round)` select loop of
`wait_until_ready` (src/creation/mod.rs:50-71), consuming the event trace.
`delay_passed` is the pacing-gate flag; a `timerElapsed` with the flag
already set is the watchdog firing (warn and re-arm only). -/
def waitLoop (round : Nat) : Creator → Bool → List Event → WaitResult
  | c, delay_passed, evs =>
    if delay_passed && canCreate c round then WaitResult.ready c evs
    else
      match evs with
      | [] => WaitResult.stuck c
      | Event.unitArrived u :: rest => waitLoop round (addUnit c u) delay_passed rest
      | Event.streamClosed :: rest => WaitResult.cancelled c rest
      | Event.timerElapsed :: rest => waitLoop round c true rest
      | Event.exitSignal :: rest => WaitResult.cancelled c rest

/-- `wait_until_ready` (src/creation/mod.rs:41-73): arm the pacing delay
(`delay_passed = false`) and run the select loop. -/
def waitUntilReady (round : Nat) (c : Creator) (evs : List Event) : WaitResult :=
  waitLoop round c false evs

/-! ## The scheduling loop after the pacing gate has opened -/

/-- Modelled from the spec (§4.2, pacing gate): the scheduling loop as it
behaves once the pacing gate "opens permanently for this call" — only the
readiness gate remains, and a timer expiry (the re-armed watchdog) is purely
observational: it changes neither the creator state nor the exit condition. -/
def waitLoopOpen (round : Nat) : Creator → List Event → WaitResult
  | c, evs =>
    if canCreate c round then WaitResult.ready c evs
    else
      match evs with
      | [] => WaitResult.stuck c
      | Event.unitArrived u :: rest => waitLoopOpen round (addUnit c u) rest
      | Event.streamClosed :: rest => WaitResult.cancelled c rest
      | Event.timerElapsed :: rest => waitLoopOpen round c rest
      | Event.exitSignal :: rest => WaitResult.cancelled c rest

/-- The starting-round oneshot as observed by `run`: it resolved with a
value, it was closed without a value (`Err`), or it never resolved during
the observed execution. -/
inductive StartingRound
  | value (r : Nat)
  | closed
  | pending
deriving DecidableEq, Repr

/-- Why the `run` task ended (or where the observed trace left it). -/
inductive RunReason
  /-- the starting-round source closed without a value (mod.rs:107-110). -/
  | startingRoundUnavailable
  /-- still suspended on `starting_round.await`: the source never resolved. -/
  | awaitingStartingRound
  /-- a scheduling wait returned `Err` (stream closed or exit signal). -/
  | cancelled
  /-- `unbounded_send` failed: the outbound receiver is gone (mod.rs:128-133). -/
  | outboundGone
  /-- the round loop ran through `max_round` (mod.rs:135). -/
  | ceilingReached
  /-- the event trace ended during a scheduling wait. -/
  | exhausted
deriving DecidableEq, Repr

/-- Observable outcome of `run`: the `CreatedPreUnit(unit, parent_hashes)`
notifications successfully sent on `outgoing_units`, in order; the unconsumed
remainder of the inbound event trace; and the reason the task ended. -/
structure RunResult where
  emitted : List (Unit × List Nat)
  rest : List Event
  reason : RunReason
deriving DecidableEq, Repr

/-- The `for round in starting_round..max_round` loop of `run`
(src/creation/mod.rs:113-134). `fuel` is the number of iterations left,
i.e. `max_round - round`, so the loop ends (reason `ceilingReached`) exactly
when `round` reaches `max_round`. `sendOk k` tells whether the `k`-th
`unbounded_send` finds the receiver still alive. If `creator.is_behind(round)`
the scheduling wait is skipped (short-circuit `&&`); either way
`create_unit(round)` is then called and its notification sent. -/
def runLoop (n_members node_id : Nat) (sendOk : Nat → Bool) :
    Creator → Nat → Nat → List Event → Nat → RunResult
  | _, 0, _, evs, _ => ⟨[], evs, RunReason.ceilingReached⟩
  | c, fuel + 1, round, evs, k =>
    match (if isBehind c round then WaitResult.ready c evs
           else waitUntilReady round c evs) with
    | WaitResult.ready c' evs' =>
        match createUnit c' round with
        | (u, parent_hashes, c'') =>
          if sendOk k then
            let res := runLoop n_members node_id sendOk c'' fuel (round + 1) evs' (k + 1)
            { res with emitted := (u, parent_hashes) :: res.emitted }
          else ⟨[], evs', RunReason.outboundGone⟩
    | WaitResult.cancelled _ evs' => ⟨[], evs', RunReason.cancelled⟩
    | WaitResult.stuck _ => ⟨[], [], RunReason.exhausted⟩

/-- The creation task `run` (src/creation/mod.rs:88-136): construct a fresh
`Creator`, await the starting round — note the await at mod.rs:105 polls only
the `starting_round` oneshot — then iterate the round loop over
`starting_round..max_round` (`max_round - r` iterations). -/
def run (node_id n_members max_round : Nat) (starting_round : StartingRound)
    (evs : List Event) (sendOk : Nat → Bool) : RunResult :=
  match starting_round with
  | StartingRound.closed => ⟨[], evs, RunReason.startingRoundUnavailable⟩
  | StartingRound.pending => ⟨[], evs, RunReason.awaitingStartingRound⟩
  | StartingRound.value r =>
      runLoop n_members node_id sendOk (Creator.new node_id n_members) (max_round - r) r evs 0

end AlephBFT

namespace AlephBFT

/-! ## Step lemmas for the scheduling loop -/

theorem waitLoop_exits_now (round : Nat) (c : Creator) (dp : Bool) (evs : List Event)
    (h : (dp && canCreate c round) = true) :
    waitLoop round c dp evs = WaitResult.ready c evs := by
  rw [waitLoop.eq_def]; simp [h]

theorem waitLoop_nil (round : Nat) (c : Creator) (dp : Bool)
    (h : (dp && canCreate c round) = false) :
    waitLoop round c dp [] = WaitResult.stuck c := by
  rw [waitLoop.eq_def]; simp [h]

theorem waitLoop_unit (round : Nat) (c : Creator) (dp : Bool) (u : Unit) (rest : List Event)
    (h : (dp && canCreate c round) = false) :
    waitLoop round c dp (Event.unitArrived u :: rest) = waitLoop round (addUnit c u) dp rest := by
  rw [waitLoop.eq_def]; simp [h]

theorem waitLoop_closed (round : Nat) (c : Creator) (dp : Bool) (rest : List Event)
    (h : (dp && canCreate c round) = false) :
    waitLoop round c dp (Event.streamClosed :: rest) = WaitResult.cancelled c rest := by
  rw [waitLoop.eq_def]; simp [h]

theorem waitLoop_timer (round : Nat) (c : Creator) (dp : Bool) (rest : List Event)
    (h : (dp && canCreate c round) = false) :
    waitLoop round c dp (Event.timerElapsed :: rest) = waitLoop round c true rest := by
  rw [waitLoop.eq_def]; simp [h]

theorem waitLoop_exit (round : Nat) (c : Creator) (dp : Bool) (rest : List Event)
    (h : (dp && canCreate c round) = false) :
    waitLoop round c dp (Event.exitSignal :: rest) = WaitResult.cancelled c rest := by
  rw [waitLoop.eq_def]; simp [h]

/-! ## Inversion lemmas for the scheduling loop -/

/-- If the loop returns `Ready` then the readiness gate is open in the final
creator state, and the consumed prefix of the trace contains a timer expiry
whenever the pacing gate was not already open at entry. -/
theorem waitLoop_ready_inv (round : Nat) :
    ∀ (evs : List Event) (c : Creator) (dp : Bool) {c' : Creator} {rest : List Event},
      waitLoop round c dp evs = WaitResult.ready c' rest →
      canCreate c' round = true ∧
        ∃ pre, evs = pre ++ rest ∧ (dp = false → Event.timerElapsed ∈ pre) := by
  intro evs
  induction evs with
  | nil =>
    intro c dp c' rest h
    by_cases hg : (dp && canCreate c round) = true
    · rw [waitLoop_exits_now round c dp [] hg] at h
      cases h
      refine ⟨(Bool.and_eq_true _ _).mp hg |>.2, [], rfl, ?_⟩
      intro hdp
      rw [hdp] at hg
      simp at hg
    · rw [waitLoop_nil round c dp (Bool.not_eq_true _ ▸ hg : _)] at h
      cases h
  | cons e tl ih =>
    intro c dp c' rest h
    by_cases hg : (dp && canCreate c round) = true
    · rw [waitLoop_exits_now round c dp (e :: tl) hg] at h
      cases h
      refine ⟨(Bool.and_eq_true _ _).mp hg |>.2, [], rfl, ?_⟩
      intro hdp
      rw [hdp] at hg
      simp at hg
    · have hg' : (dp && canCreate c round) = false := by
        cases hb : (dp && canCreate c round) with
        | false => rfl
        | true => exact absurd hb hg
      cases e with
      | unitArrived u =>
        rw [waitLoop_unit round c dp u tl hg'] at h
        obtain ⟨hcc, pre, hpre, htimer⟩ := ih (addUnit c u) dp h
        exact ⟨hcc, Event.unitArrived u :: pre, by rw [hpre]; rfl,
          fun hdp => List.mem_cons_of_mem _ (htimer hdp)⟩
      | streamClosed =>
        rw [waitLoop_closed round c dp tl hg'] at h
        cases h
      | timerElapsed =>
        rw [waitLoop_timer round c dp tl hg'] at h
        obtain ⟨hcc, pre, hpre, _⟩ := ih c true h
        exact ⟨hcc, Event.timerElapsed :: pre, by rw [hpre]; rfl,
          fun _ => List.mem_cons_self _ _⟩
      | exitSignal =>
        rw [waitLoop_exit round c dp tl hg'] at h
        cases h

/-- If the loop returns `Cancelled` then the first unconsumed event position
held a stream-closed or exit-signal event, and the remainder after it is
returned untouched (the loop exits immediately, without further waiting). -/
theorem waitLoop_cancelled_inv (round : Nat) :
    ∀ (evs : List Event) (c : Creator) (dp : Bool) {c' : Creator} {rest : List Event},
      waitLoop round c dp evs = WaitResult.cancelled c' rest →
      ∃ pre e, evs = pre ++ e :: rest ∧
        (e = Event.streamClosed ∨ e = Event.exitSignal) := by
  intro evs
  induction evs with
  | nil =>
    intro c dp c' rest h
    by_cases hg : (dp && canCreate c round) = true
    · rw [waitLoop_exits_now round c dp [] hg] at h; cases h
    · rw [waitLoop_nil round c dp (by cases hb : (dp && canCreate c round) with
        | false => rfl
        | true => exact absurd hb hg)] at h
      cases h
  | cons e tl ih =>
    intro c dp c' rest h
    by_cases hg : (dp && canCreate c round) = true
    · rw [waitLoop_exits_now round c dp (e :: tl) hg] at h; cases h
    · have hg' : (dp && canCreate c round) = false := by
        cases hb : (dp && canCreate c round) with
        | false => rfl
        | true => exact absurd hb hg
      cases e with
      | unitArrived u =>
        rw [waitLoop_unit round c dp u tl hg'] at h
        obtain ⟨pre, e', hpre, he⟩ := ih (addUnit c u) dp h
        exact ⟨Event.unitArrived u :: pre, e', by rw [hpre]; rfl, he⟩
      | streamClosed =>
        rw [waitLoop_closed round c dp tl hg'] at h
        cases h
        exact ⟨[], Event.streamClosed, rfl, Or.inl rfl⟩
      | timerElapsed =>
        rw [waitLoop_timer round c dp tl hg'] at h
        obtain ⟨pre, e', hpre, he⟩ := ih c true h
        exact ⟨Event.timerElapsed :: pre, e', by rw [hpre]; rfl, he⟩
      | exitSignal =>
        rw [waitLoop_exit round c dp tl hg'] at h
        cases h
        exact ⟨[], Event.exitSignal, rfl, Or.inr rfl⟩

end AlephBFT
namespace AlephBFT

/-- Claim C5 (confirmed): within a single call to `wait_until_ready`, once
the pacing gate has opened (`delay_passed = true`) it stays open for all
later iterations of that call: the loop is extensionally equal to
`waitLoopOpen`, the loop with no pacing gate at all, in which an expiry of
the re-armed watchdog timer neither changes the creator state nor the exit
condition (it only emits a diagnostic and re-arms). -/
theorem pacing_gate_stays_open (round : Nat) :
    ∀ (evs : List Event) (c : Creator),
      waitLoop round c true evs = waitLoopOpen round c evs := by
  intro evs
  induction evs with
  | nil =>
    intro c
    rw [waitLoop.eq_def, waitLoopOpen.eq_def]
    simp
  | cons e tl ih =>
    intro c
    rw [waitLoop.eq_def, waitLoopOpen.eq_def]
    by_cases hc : canCreate c round = true
    · simp [hc]
    · have hc' : canCreate c round = false := by
        cases hb : canCreate c round with
        | false => rfl
        | true => exact absurd hb hc
      cases e <;> simp [hc', ih]

/-! ## Step lemmas for the round loop of `run` -/

theorem runLoop_zero (n_members node_id : Nat) (sendOk : Nat → Bool)
    (c : Creator) (round : Nat) (evs : List Event) (k : Nat) :
    runLoop n_members node_id sendOk c 0 round evs k = ⟨[], evs, RunReason.ceilingReached⟩ :=
  rfl

theorem runLoop_succ_ready (n_members node_id : Nat) (sendOk : Nat → Bool)
    (c : Creator) (fuel round : Nat) (evs : List Event) (k : Nat)
    {c' c'' : Creator} {evs' : List Event} {u : Unit} {ph : List Nat}
    (hw : (if isBehind c round then WaitResult.ready c evs
           else waitUntilReady round c evs) = WaitResult.ready c' evs')
    (hc : createUnit c' round = (u, ph, c''))
    (hs : sendOk k = true) :
    runLoop n_members node_id sendOk c (fuel + 1) round evs k =
      ⟨(u, ph) :: (runLoop n_members node_id sendOk c'' fuel (round + 1) evs' (k + 1)).emitted,
       (runLoop n_members node_id sendOk c'' fuel (round + 1) evs' (k + 1)).rest,
       (runLoop n_members node_id sendOk c'' fuel (round + 1) evs' (k + 1)).reason⟩ := by
  simp only [runLoop]
  rw [hw]
  simp [hc, hs]

theorem runLoop_succ_sendFail (n_members node_id : Nat) (sendOk : Nat → Bool)
    (c : Creator) (fuel round : Nat) (evs : List Event) (k : Nat)
    {c' : Creator} {evs' : List Event}
    (hw : (if isBehind c round then WaitResult.ready c evs
           else waitUntilReady round c evs) = WaitResult.ready c' evs')
    (hs : sendOk k = false) :
    runLoop n_members node_id sendOk c (fuel + 1) round evs k =
      ⟨[], evs', RunReason.outboundGone⟩ := by
  simp only [runLoop]
  rw [hw]
  simp [hs]

theorem runLoop_succ_cancelled (n_members node_id : Nat) (sendOk : Nat → Bool)
    (c : Creator) (fuel round : Nat) (evs : List Event) (k : Nat)
    {c' : Creator} {evs' : List Event}
    (hw : (if isBehind c round then WaitResult.ready c evs
           else waitUntilReady round c evs) = WaitResult.cancelled c' evs') :
    runLoop n_members node_id sendOk c (fuel + 1) round evs k =
      ⟨[], evs', RunReason.cancelled⟩ := by
  simp only [runLoop]
  rw [hw]

theorem runLoop_succ_stuck (n_members node_id : Nat) (sendOk : Nat → Bool)
    (c : Creator) (fuel round : Nat) (evs : List Event) (k : Nat)
    {c' : Creator}
    (hw : (if isBehind c round then WaitResult.ready c evs
           else waitUntilReady round c evs) = WaitResult.stuck c') :
    runLoop n_members node_id sendOk c (fuel + 1) round evs k =
      ⟨[], [], RunReason.exhausted⟩ := by
  simp only [runLoop]
  rw [hw]

/-- The rounds of the unit a call to `create_unit(round)` returns. -/
theorem createUnit_round (c : Creator) (round : Nat) :
    (createUnit c round).1.round = round :=
  rfl

/-- The notifications emitted by the round loop carry consecutive rounds
starting at the loop's first round: never a round twice, never out of order,
never skipping ahead, and at most `fuel` of them. -/
theorem runLoop_emitted_rounds (n_members node_id : Nat) (sendOk : Nat → Bool) :
    ∀ (fuel : Nat) (c : Creator) (round : Nat) (evs : List Event) (k : Nat),
      ∃ m, m ≤ fuel ∧
        (runLoop n_members node_id sendOk c fuel round evs k).emitted.map
          (fun e => e.1.round) = List.range' round m := by
  intro fuel
  induction fuel with
  | zero =>
    intro c round evs k
    exact ⟨0, Nat.le_refl 0, rfl⟩
  | succ fuel ih =>
    intro c round evs k
    cases hw : (if isBehind c round then WaitResult.ready c evs
                else waitUntilReady round c evs) with
    | ready c' evs' =>
      rcases hc : createUnit c' round with ⟨u, ph, c''⟩
      cases hs : sendOk k with
      | true =>
        rw [runLoop_succ_ready n_members node_id sendOk c fuel round evs k hw hc hs]
        obtain ⟨m, hm, hmap⟩ := ih c'' (round + 1) evs' (k + 1)
        refine ⟨m + 1, Nat.succ_le_succ hm, ?_⟩
        have hu : u.round = round := by
          have := createUnit_round c' round
          rw [hc] at this
          exact this
        simp only [List.map_cons, hmap, hu, List.range'_succ]
      | false =>
        rw [runLoop_succ_sendFail n_members node_id sendOk c fuel round evs k hw hs]
        exact ⟨0, Nat.zero_le _, rfl⟩
    | cancelled c' evs' =>
      rw [runLoop_succ_cancelled n_members node_id sendOk c fuel round evs k hw]
      exact ⟨0, Nat.zero_le _, rfl⟩
    | stuck c' =>
      rw [runLoop_succ_stuck n_members node_id sendOk c fuel round evs k hw]
      exact ⟨0, Nat.zero_le _, rfl⟩

end AlephBFT
namespace AlephBFT

/-! ## Parent-set lemmas for `create_unit` -/

theorem createUnit_parents (c : Creator) (round : Nat) :
    (createUnit c round).1.parents =
      if round = 0 then []
      else (List.range c.n_members).filterMap fun i =>
        (getCandidate c (round - 1) i).map fun h => (i, h) :=
  rfl

theorem length_filterMap_eq_countP {α β : Type} (f : α → Option β) :
    ∀ l : List α, (List.filterMap f l).length = l.countP fun a => (f a).isSome := by
  intro l
  induction l with
  | nil => rfl
  | cons a tl ih =>
    cases hf : f a <;> simp [List.filterMap_cons, hf, List.countP_cons, ih]

theorem filterMap_candidate_keys (c : Creator) (r : Nat) :
    ∀ l : List Nat,
      ((l.filterMap fun i => (getCandidate c r i).map fun h => (i, h)).map Prod.fst)
        = l.filter fun i => (getCandidate c r i).isSome := by
  intro l
  induction l with
  | nil => rfl
  | cons a tl ih =>
    cases hf : getCandidate c r a <;> simp [List.filterMap_cons, hf, List.filter_cons, ih]

theorem createUnit_parents_length (c : Creator) (round : Nat) (h : round ≠ 0) :
    (createUnit c round).1.parents.length = countCandidates c (round - 1) := by
  rw [createUnit_parents, if_neg h, length_filterMap_eq_countP]
  unfold countCandidates
  congr 1
  funext i
  cases hf : getCandidate c (round - 1) i <;> simp [hf]

theorem createUnit_parents_le (c : Creator) (round : Nat) (h : round ≠ 0) :
    (createUnit c round).1.parents.length ≤ c.n_members := by
  rw [createUnit_parents, if_neg h]
  have hle := List.length_filterMap_le
    (fun i => (getCandidate c (round - 1) i).map fun h => (i, h)) (List.range c.n_members)
  rwa [List.length_range] at hle

theorem createUnit_parents_keys_nodup (c : Creator) (round : Nat) (h : round ≠ 0) :
    ((createUnit c round).1.parents.map Prod.fst).Nodup := by
  rw [createUnit_parents, if_neg h, filterMap_candidate_keys]
  exact (List.nodup_range _).filter _

theorem createUnit_parents_mem (c : Creator) (round : Nat) (h : round ≠ 0) :
    ∀ p ∈ (createUnit c round).1.parents, getCandidate c (round - 1) p.1 = some p.2 := by
  intro p hp
  rw [createUnit_parents, if_neg h] at hp
  obtain ⟨i, _, hf⟩ := List.mem_filterMap.mp hp
  cases hg : getCandidate c (round - 1) i with
  | none => rw [hg] at hf; cases hf
  | some hh =>
    rw [hg] at hf
    have hpe : (i, hh) = p := Option.some_injective _ hf
    rw [← hpe]
    exact hg

theorem createUnit_parents_self (c : Creator) (round : Nat) (h : round ≠ 0)
    (hid : c.node_id < c.n_members) {hh : Nat}
    (hcand : getCandidate c (round - 1) c.node_id = some hh) :
    (c.node_id, hh) ∈ (createUnit c round).1.parents := by
  rw [createUnit_parents, if_neg h]
  exact List.mem_filterMap.mpr ⟨c.node_id, List.mem_range.mpr hid, by rw [hcand]; rfl⟩

theorem canCreate_pos (c : Creator) (r : Nat) (h0 : r ≠ 0) (h : canCreate c r = true) :
    (getCandidate c (r - 1) c.node_id).isSome = true ∧
      2 * c.n_members / 3 < countCandidates c (r - 1) := by
  unfold canCreate at h
  simpa [h0] using h

end AlephBFT
namespace AlephBFT

/-! ## The claims -/

/-- Claim C1 (counterexample): with a single member and a self-authored
round-5 unit arriving during the round-0 wait, `is_behind(1)` is true when
the orchestrator reaches round 1 — yet the run emits creation events for
rounds 0 and 1: the round loop still calls `create_unit(1)` and still sends
a `CreatedPreUnit` for round 1 (it does so even though the remaining event
trace is empty, i.e. without any scheduling wait), refuting the claim that
no creation event is emitted for a behind round. -/
theorem behind_round_still_emits_counterexample :
    isBehind (createUnit (addUnit (Creator.new 0 1) ⟨99, 5, 0, []⟩) 0).2.2 1 = true ∧
    ((run 0 1 2 (StartingRound.value 0)
        [Event.unitArrived ⟨99, 5, 0, []⟩, Event.timerElapsed]
        (fun _ => true)).emitted.map fun e => e.1.round) = [0, 1] ∧
    (runLoop 1 0 (fun _ => true)
        (createUnit (addUnit (Creator.new 0 1) ⟨99, 5, 0, []⟩) 0).2.2 1 1 [] 1).emitted.length
      = 1 :=
  ⟨by decide, by decide, by decide⟩

/-- Claim C1 (amended): for every round for which `creator.is_behind(round)`
is true, the scheduling wait is skipped — the event trace `evs` is handed to
the next round completely unconsumed — but `create_unit(round)` is still
called and, when the send succeeds, a `CreatedPreUnit` notification for that
round is still emitted. -/
theorem behind_round_skips_wait_but_emits (n_members node_id : Nat)
    (sendOk : Nat → Bool) (c : Creator) (fuel round : Nat) (evs : List Event) (k : Nat)
    {u : Unit} {ph : List Nat} {c'' : Creator}
    (hb : isBehind c round = true)
    (hc : createUnit c round = (u, ph, c''))
    (hs : sendOk k = true) :
    runLoop n_members node_id sendOk c (fuel + 1) round evs k =
      ⟨(u, ph) :: (runLoop n_members node_id sendOk c'' fuel (round + 1) evs (k + 1)).emitted,
       (runLoop n_members node_id sendOk c'' fuel (round + 1) evs (k + 1)).rest,
       (runLoop n_members node_id sendOk c'' fuel (round + 1) evs (k + 1)).reason⟩ :=
  runLoop_succ_ready n_members node_id sendOk c fuel round evs k (by simp [hb]) hc hs

theorem behind_round_skips_wait_but_emits_witness :
    runLoop 1 0 (fun _ => true) ⟨0, 1, [], some 5⟩ (0 + 1) 1 [] 0 =
      ⟨((createUnit ⟨0, 1, [], some 5⟩ 1).1, (createUnit ⟨0, 1, [], some 5⟩ 1).2.1) ::
         (runLoop 1 0 (fun _ => true) (createUnit ⟨0, 1, [], some 5⟩ 1).2.2 0 2 [] 1).emitted,
       (runLoop 1 0 (fun _ => true) (createUnit ⟨0, 1, [], some 5⟩ 1).2.2 0 2 [] 1).rest,
       (runLoop 1 0 (fun _ => true) (createUnit ⟨0, 1, [], some 5⟩ 1).2.2 0 2 [] 1).reason⟩ :=
  behind_round_skips_wait_but_emits 1 0 (fun _ => true) ⟨0, 1, [], some 5⟩ 0 1 [] 0
    (by decide) rfl rfl

/-- Claim C2 (counterexample): the await of the starting-round value at
mod.rs:105 polls only the `starting_round` oneshot, so the cancellation
signal is NOT observed at that wait point: with the starting-round source
never resolving and the exit signal already fired, the task neither exits
(its reason is `awaitingStartingRound`, not `cancelled`) nor consumes the
signal. -/
theorem exit_unobserved_during_starting_wait_counterexample :
    run 0 1 2 StartingRound.pending [Event.exitSignal] (fun _ => true) =
      ⟨[], [Event.exitSignal], RunReason.awaitingStartingRound⟩ ∧
    RunReason.awaitingStartingRound ≠ RunReason.cancelled :=
  ⟨by decide, by decide⟩

/-- Claim C2 (amended): the cancellation signal is observed at every wait
point of the scheduling loop — but not during the wait for the
starting-round value — and whenever the loop is actually waiting and the
signal fires, the loop returns `Cancelled` immediately and the orchestrator
aborts with no creation event emitted for that round or any later one. -/
theorem exit_observed_at_scheduling_wait_points
    (round : Nat) (c : Creator) (dp : Bool) (rest : List Event)
    (n_members node_id : Nat) (sendOk : Nat → Bool) (fuel : Nat)
    (c0 : Creator) (evs : List Event) (k : Nat) {c' : Creator} {evs' : List Event}
    (hg : (dp && canCreate c round) = false)
    (hb : isBehind c0 round = false)
    (hw : waitUntilReady round c0 evs = WaitResult.cancelled c' evs') :
    waitLoop round c dp (Event.exitSignal :: rest) = WaitResult.cancelled c rest ∧
    runLoop n_members node_id sendOk c0 (fuel + 1) round evs k =
      ⟨[], evs', RunReason.cancelled⟩ :=
  ⟨waitLoop_exit round c dp rest hg,
   runLoop_succ_cancelled n_members node_id sendOk c0 fuel round evs k
     (by simpa [hb] using hw)⟩

theorem exit_observed_at_scheduling_wait_points_witness :
    waitLoop 0 (Creator.new 0 1) false (Event.exitSignal :: []) =
      WaitResult.cancelled (Creator.new 0 1) [] ∧
    runLoop 1 0 (fun _ => true) (Creator.new 0 1) (0 + 1) 0 [Event.exitSignal] 0 =
      ⟨[], [], RunReason.cancelled⟩ :=
  exit_observed_at_scheduling_wait_points 0 (Creator.new 0 1) false []
    1 0 (fun _ => true) 0 (Creator.new 0 1) [Event.exitSignal] 0
    (by decide) (by decide)
    (by decide : waitUntilReady 0 (Creator.new 0 1) [Event.exitSignal] =
      WaitResult.cancelled (Creator.new 0 1) [])

/-- Claim C3 (confirmed, Creator modelled from the spec): every unit created
for round 0 has an empty parent set regardless of previously added units;
and for every unit created for a round `r > 0` (under `create_unit`'s
contract precondition `can_create(r)`, and with the node's index in range),
the parent set has more than `floor(2N/3)` and at most `N` entries, its
creators are pairwise distinct, every entry is a recorded round-`(r-1)` unit
of its creator, and one entry is for `creator == self` and equals the node's
own round-`(r-1)` unit hash. -/
theorem created_unit_parent_invariants :
    (∀ c : Creator, (createUnit c 0).1.parents = []) ∧
    ∀ (c : Creator) (r : Nat), 0 < r → c.node_id < c.n_members → canCreate c r = true →
      2 * c.n_members / 3 < (createUnit c r).1.parents.length ∧
      (createUnit c r).1.parents.length ≤ c.n_members ∧
      ((createUnit c r).1.parents.map Prod.fst).Nodup ∧
      (∀ p ∈ (createUnit c r).1.parents, getCandidate c (r - 1) p.1 = some p.2) ∧
      ∃ hh, getCandidate c (r - 1) c.node_id = some hh ∧
        (c.node_id, hh) ∈ (createUnit c r).1.parents := by
  constructor
  · intro c
    rfl
  · intro c r hr hid hcc
    have h0 : r ≠ 0 := Nat.pos_iff_ne_zero.mp hr
    obtain ⟨hself, hcount⟩ := canCreate_pos c r h0 hcc
    refine ⟨?_, createUnit_parents_le c r h0, createUnit_parents_keys_nodup c r h0,
      createUnit_parents_mem c r h0, ?_⟩
    · rw [createUnit_parents_length c r h0]
      exact hcount
    · obtain ⟨hh, hcand⟩ := Option.isSome_iff_exists.mp hself
      exact ⟨hh, hcand, createUnit_parents_self c r h0 hid hcand⟩

theorem created_unit_parent_invariants_witness :
    2 * (Creator.n_members ⟨0, 4, [(0, 0, 5), (0, 1, 6), (0, 2, 7), (0, 3, 8)], some 0⟩) / 3 <
      (createUnit ⟨0, 4, [(0, 0, 5), (0, 1, 6), (0, 2, 7), (0, 3, 8)], some 0⟩ 1).1.parents.length ∧
    (createUnit ⟨0, 4, [(0, 0, 5), (0, 1, 6), (0, 2, 7), (0, 3, 8)], some 0⟩ 1).1.parents.length ≤
      Creator.n_members ⟨0, 4, [(0, 0, 5), (0, 1, 6), (0, 2, 7), (0, 3, 8)], some 0⟩ ∧
    ((createUnit ⟨0, 4, [(0, 0, 5), (0, 1, 6), (0, 2, 7), (0, 3, 8)], some 0⟩ 1).1.parents.map
      Prod.fst).Nodup ∧
    (∀ p ∈ (createUnit ⟨0, 4, [(0, 0, 5), (0, 1, 6), (0, 2, 7), (0, 3, 8)], some 0⟩ 1).1.parents,
      getCandidate ⟨0, 4, [(0, 0, 5), (0, 1, 6), (0, 2, 7), (0, 3, 8)], some 0⟩ (1 - 1) p.1
        = some p.2) ∧
    ∃ hh, getCandidate ⟨0, 4, [(0, 0, 5), (0, 1, 6), (0, 2, 7), (0, 3, 8)], some 0⟩ (1 - 1)
        (Creator.node_id ⟨0, 4, [(0, 0, 5), (0, 1, 6), (0, 2, 7), (0, 3, 8)], some 0⟩) = some hh ∧
      (Creator.node_id ⟨0, 4, [(0, 0, 5), (0, 1, 6), (0, 2, 7), (0, 3, 8)], some 0⟩, hh) ∈
        (createUnit ⟨0, 4, [(0, 0, 5), (0, 1, 6), (0, 2, 7), (0, 3, 8)], some 0⟩ 1).1.parents :=
  created_unit_parent_invariants.2 ⟨0, 4, [(0, 0, 5), (0, 1, 6), (0, 2, 7), (0, 3, 8)], some 0⟩ 1
    (by decide) (by decide) (by decide)

end AlephBFT
namespace AlephBFT

/-- Claim C4 (confirmed): `wait_until_ready` returns `Ready` iff both gates
hold — whenever it returns `Ready` the readiness gate `can_create(round)`
holds in the final state and the consumed prefix of the trace contains a
pacing-timer expiry, and conversely once the pacing gate is open and
`can_create(round)` holds the loop returns `Ready` at once; moreover every
unit arriving while the loop is still waiting is unconditionally passed to
`add_unit`, after which readiness is re-evaluated (the loop recurses on the
updated creator). -/
theorem wait_until_ready_gating :
    (∀ (round : Nat) (c : Creator) (evs : List Event) (c' : Creator) (rest : List Event),
       waitUntilReady round c evs = WaitResult.ready c' rest →
       canCreate c' round = true ∧ ∃ pre, evs = pre ++ rest ∧ Event.timerElapsed ∈ pre) ∧
    (∀ (round : Nat) (c : Creator) (evs : List Event),
       canCreate c round = true → waitLoop round c true evs = WaitResult.ready c evs) ∧
    (∀ (round : Nat) (c : Creator) (dp : Bool) (u : Unit) (rest : List Event),
       (dp && canCreate c round) = false →
       waitLoop round c dp (Event.unitArrived u :: rest)
         = waitLoop round (addUnit c u) dp rest) := by
  refine ⟨?_, ?_, waitLoop_unit⟩
  · intro round c evs c' rest h
    obtain ⟨hcc, pre, hpre, ht⟩ := waitLoop_ready_inv round evs c false h
    exact ⟨hcc, pre, hpre, ht rfl⟩
  · intro round c evs hcc
    exact waitLoop_exits_now round c true evs (by simp [hcc])

theorem wait_until_ready_gating_witness :
    canCreate (Creator.new 0 1) 0 = true ∧
    ∃ pre, [Event.timerElapsed] = pre ++ ([] : List Event) ∧ Event.timerElapsed ∈ pre :=
  wait_until_ready_gating.1 0 (Creator.new 0 1) [Event.timerElapsed] (Creator.new 0 1) []
    (by decide)

/-- Claim C6 (confirmed): `wait_until_ready` returns `Cancelled` exactly when
the inbound stream ends or the external cancellation signal is received —
every `Cancelled` outcome consumes a trace ending at a `streamClosed` or
`exitSignal` event, and either such event, hit while the loop is waiting,
ends the loop immediately with the remainder of the trace untouched.
Whenever a round's scheduling loop returns `Cancelled`, the round loop
aborts with no creation event emitted for that round or any later one. -/
theorem cancelled_iff_closed_or_exit :
    (∀ (round : Nat) (evs : List Event) (c : Creator) (dp : Bool) (c' : Creator)
       (rest : List Event),
       waitLoop round c dp evs = WaitResult.cancelled c' rest →
       ∃ pre e, evs = pre ++ e :: rest ∧
         (e = Event.streamClosed ∨ e = Event.exitSignal)) ∧
    (∀ (round : Nat) (c : Creator) (dp : Bool) (rest : List Event),
       (dp && canCreate c round) = false →
       waitLoop round c dp (Event.streamClosed :: rest) = WaitResult.cancelled c rest ∧
       waitLoop round c dp (Event.exitSignal :: rest) = WaitResult.cancelled c rest) ∧
    (∀ (n_members node_id : Nat) (sendOk : Nat → Bool) (c : Creator) (fuel round : Nat)
       (evs : List Event) (k : Nat) (c' : Creator) (evs' : List Event),
       isBehind c round = false →
       waitUntilReady round c evs = WaitResult.cancelled c' evs' →
       runLoop n_members node_id sendOk c (fuel + 1) round evs k =
         ⟨[], evs', RunReason.cancelled⟩) := by
  refine ⟨waitLoop_cancelled_inv, ?_, ?_⟩
  · intro round c dp rest hg
    exact ⟨waitLoop_closed round c dp rest hg, waitLoop_exit round c dp rest hg⟩
  · intro n_members node_id sendOk c fuel round evs k c' evs' hb hw
    exact runLoop_succ_cancelled n_members node_id sendOk c fuel round evs k
      (by simpa [hb] using hw)

theorem cancelled_iff_closed_or_exit_witness :
    runLoop 1 0 (fun _ => true) (Creator.new 0 1) (0 + 1) 0 [Event.streamClosed] 0 =
      ⟨[], [], RunReason.cancelled⟩ :=
  cancelled_iff_closed_or_exit.2.2 1 0 (fun _ => true) (Creator.new 0 1) 0 0
    [Event.streamClosed] 0 (Creator.new 0 1) [] (by decide)
    (by decide : waitUntilReady 0 (Creator.new 0 1) [Event.streamClosed] =
      WaitResult.cancelled (Creator.new 0 1) [])

/-- Claim C7 (confirmed): the rounds for which `run` emits creation events
form a contiguous strictly increasing sequence `r, r+1, ...` of length at
most `max_round - r` starting at the starting round `r` — so rounds are
processed one at a time in strictly increasing order within
`[r, max_round)`, with at most one creation event per round and round
`r+1`'s event listed only after round `r`'s; and if the starting round is at
least `max_round` zero creation events are emitted, the trace is never
consumed (no scheduling wait runs) and the run terminates via the round
ceiling. -/
theorem emitted_rounds_strictly_increasing :
    (∀ (node_id n_members max_round r : Nat) (evs : List Event) (sendOk : Nat → Bool),
       ∃ m, m ≤ max_round - r ∧
         ((run node_id n_members max_round (StartingRound.value r) evs sendOk).emitted.map
           fun e => e.1.round) = List.range' r m) ∧
    (∀ (node_id n_members max_round r : Nat) (evs : List Event) (sendOk : Nat → Bool),
       max_round ≤ r →
       run node_id n_members max_round (StartingRound.value r) evs sendOk =
         ⟨[], evs, RunReason.ceilingReached⟩) := by
  constructor
  · intro node_id n_members max_round r evs sendOk
    exact runLoop_emitted_rounds n_members node_id sendOk (max_round - r)
      (Creator.new node_id n_members) r evs 0
  · intro node_id n_members max_round r evs sendOk h
    show runLoop n_members node_id sendOk (Creator.new node_id n_members)
      (max_round - r) r evs 0 = _
    rw [Nat.sub_eq_zero_of_le h]
    exact runLoop_zero n_members node_id sendOk (Creator.new node_id n_members) r evs 0

theorem emitted_rounds_strictly_increasing_witness :
    run 0 1 2 (StartingRound.value 2) [Event.timerElapsed] (fun _ => true) =
      ⟨[], [Event.timerElapsed], RunReason.ceilingReached⟩ :=
  emitted_rounds_strictly_increasing.2 0 1 2 2 [Event.timerElapsed] (fun _ => true)
    (by decide)

/-- Claim C8 (confirmed): if the starting-round source closes without
producing a value, `run` aborts immediately before doing any work — no
creation event is emitted, nothing is sent on the outbound channel, and the
inbound event trace is returned completely unconsumed. -/
theorem starting_round_unavailable_aborts (node_id n_members max_round : Nat)
    (evs : List Event) (sendOk : Nat → Bool) :
    run node_id n_members max_round StartingRound.closed evs sendOk =
      ⟨[], evs, RunReason.startingRoundUnavailable⟩ :=
  rfl

/-- Claim C9 (confirmed): after each created unit the round loop sends
exactly one `CreatedPreUnit` notification carrying that unit and its
parent-hash list — exactly one new entry is prepended per completed round
and the send index advances by one — and if the send fails because the
receiver is gone, the run aborts at once: no notification is recorded, no
further creation event is emitted and no further round is processed. -/
theorem outbound_send_discipline :
    (∀ (n_members node_id : Nat) (sendOk : Nat → Bool) (c : Creator) (fuel round : Nat)
       (evs : List Event) (k : Nat) (c' c'' : Creator) (evs' : List Event)
       (u : Unit) (ph : List Nat),
       (if isBehind c round then WaitResult.ready c evs else waitUntilReady round c evs) =
         WaitResult.ready c' evs' →
       createUnit c' round = (u, ph, c'') →
       sendOk k = true →
       runLoop n_members node_id sendOk c (fuel + 1) round evs k =
         ⟨(u, ph) ::
            (runLoop n_members node_id sendOk c'' fuel (round + 1) evs' (k + 1)).emitted,
          (runLoop n_members node_id sendOk c'' fuel (round + 1) evs' (k + 1)).rest,
          (runLoop n_members node_id sendOk c'' fuel (round + 1) evs' (k + 1)).reason⟩) ∧
    (∀ (n_members node_id : Nat) (sendOk : Nat → Bool) (c : Creator) (fuel round : Nat)
       (evs : List Event) (k : Nat) (c' : Creator) (evs' : List Event),
       (if isBehind c round then WaitResult.ready c evs else waitUntilReady round c evs) =
         WaitResult.ready c' evs' →
       sendOk k = false →
       runLoop n_members node_id sendOk c (fuel + 1) round evs k =
         ⟨[], evs', RunReason.outboundGone⟩) := by
  constructor
  · intro n_members node_id sendOk c fuel round evs k c' c'' evs' u ph hw hc hs
    exact runLoop_succ_ready n_members node_id sendOk c fuel round evs k hw hc hs
  · intro n_members node_id sendOk c fuel round evs k c' evs' hw hs
    exact runLoop_succ_sendFail n_members node_id sendOk c fuel round evs k hw hs

theorem outbound_send_discipline_witness :
    runLoop 1 0 (fun _ => false) (Creator.new 0 1) (0 + 1) 0 [Event.timerElapsed] 0 =
      ⟨[], [], RunReason.outboundGone⟩ :=
  outbound_send_discipline.2 1 0 (fun _ => false) (Creator.new 0 1) 0 0
    [Event.timerElapsed] 0 (Creator.new 0 1) [] (by decide) (by decide)

/-- Claim C10 (confirmed): `run` never consumes the inbound event trace
before the starting-round value has resolved — while the source is pending
or when it closes, the trace is returned whole and nothing is emitted — and
once the starting round resolves to a value, the round loop receives the
full queued trace, which is first read inside a round's scheduling wait. -/
theorem inbound_not_polled_before_starting_round :
    (∀ (node_id n_members max_round : Nat) (evs : List Event) (sendOk : Nat → Bool),
       (run node_id n_members max_round StartingRound.pending evs sendOk).rest = evs ∧
       (run node_id n_members max_round StartingRound.pending evs sendOk).emitted = []) ∧
    (∀ (node_id n_members max_round : Nat) (evs : List Event) (sendOk : Nat → Bool),
       (run node_id n_members max_round StartingRound.closed evs sendOk).rest = evs ∧
       (run node_id n_members max_round StartingRound.closed evs sendOk).emitted = []) ∧
    (∀ (node_id n_members max_round r : Nat) (evs : List Event) (sendOk : Nat → Bool),
       run node_id n_members max_round (StartingRound.value r) evs sendOk =
         runLoop n_members node_id sendOk (Creator.new node_id n_members)
           (max_round - r) r evs 0) :=
  ⟨fun _ _ _ _ _ => ⟨rfl, rfl⟩, fun _ _ _ _ _ => ⟨rfl, rfl⟩, fun _ _ _ _ _ _ => rfl⟩

end AlephBFT
